import Mathlib

/-!
Verification of the BetterEmail plugin core (classifier, digest lifecycle,
poller/pipeline orchestration, atomic persistence, scheduler) against its
natural-language specification.  The definitions below are shallow embeddings
of the TypeScript source: pure functions are translated directly; host
primitives (JSON.parse, Intl time-zone hour extraction, the gog subprocess,
the file system) are modelled as explicit parameters or small state machines.
-/

namespace BetterEmail

/-- JSON values, the result type of the host `JSON.parse` primitive.
Objects are association lists of fields (JS objects have unique keys). -/
inductive Json where
  | null
  | bool (b : Bool)
  | num (n : Int)
  | str (s : String)
  | arr (items : List Json)
  | obj (fields : List (String × Json))

/-- Importance tier, from `types.ts` (`ImportanceLevel`). -/
inductive ImportanceLevel where
  | high
  | medium
  | low
deriving DecidableEq, Repr

/-- `ClassificationResult` from `types.ts`. -/
structure ClassificationResult where
  id : String
  importance : ImportanceLevel
  reason : String
  notify : Bool
deriving DecidableEq, Repr

/-- The whitespace class of the JS `\s` / `trim()` primitives (ASCII part). -/
def isJsSpace (c : Char) : Bool :=
  c = ' ' || c = '\t' || c = '\n' || c = '\r' || c = '\x0b' || c = '\x0c'

/-- The backquote character (code-fence delimiter). -/
def btick : Char := Char.ofNat 96

/-- JS `String.prototype.trim` on a character list. -/
def trimL (cs : List Char) : List Char :=
  ((cs.dropWhile isJsSpace).reverse.dropWhile isJsSpace).reverse

/-- JS `text.trim()`. -/
def jsTrim (s : String) : String := String.mk (trimL s.data)

/-- The replace of `^\x60\x60\x60(?:json)?\s*` by the empty string
(`classifier.ts` line 79, first replace; case-insensitive on `json`). -/
def dropFencePrefixL : List Char → List Char
  | c1 :: c2 :: c3 :: rest =>
    if c1 = btick ∧ c2 = btick ∧ c3 = btick then
      let rest' := if (rest.take 4).map Char.toLower = "json".data then rest.drop 4 else rest
      rest'.dropWhile isJsSpace
    else c1 :: c2 :: c3 :: rest
  | cs => cs

/-- The replace of `\s*\x60\x60\x60$` by the empty string
(`classifier.ts` line 79, second replace). -/
def dropFenceSuffixL (cs : List Char) : List Char :=
  match cs.reverse with
  | c1 :: c2 :: c3 :: rest =>
    if c1 = btick ∧ c2 = btick ∧ c3 = btick then (rest.dropWhile isJsSpace).reverse
    else cs
  | _ => cs

/-- The `cleaned` text of `parseClassifierResponse` (`classifier.ts` line 79):
strip an opening code fence, strip a closing code fence, trim. -/
def cleanFences (text : String) : String :=
  String.mk (trimL (dropFenceSuffixL (dropFencePrefixL text.data)))

/-- `failOpenDefaults` (`classifier.ts` lines 67-74). -/
def failOpenDefaults (emailIds : List String) : List ClassificationResult :=
  emailIds.map fun id =>
    { id := id
      importance := .high
      reason := "classification failed — fail open"
      notify := true }

/-- JS object field access on a parsed JSON object. -/
def getField : List (String × Json) → String → Option Json
  | [], _ => none
  | (k, v) :: rest, key => if k = key then some v else getField rest key

/-- The importance coercion of `classifier.ts` line 90:
`["high","medium","low"].includes(item.importance) ? item.importance : "high"`. -/
def coerceImportance (v : Option Json) : ImportanceLevel :=
  match v with
  | some (.str s) =>
    if s = "high" then .high
    else if s = "medium" then .medium
    else if s = "low" then .low
    else .high
  | _ => .high

/-- The reason coercion of `classifier.ts` line 91. -/
def coerceReason (v : Option Json) : String :=
  match v with
  | some (.str s) => s
  | _ => "no reason given"

/-- The notify coercion of `classifier.ts` line 92. -/
def coerceNotify (v : Option Json) : Bool :=
  match v with
  | some (.bool b) => b
  | _ => true

/-- The per-item verdict built at `classifier.ts` lines 88-93. -/
def entryOfItem (id : String) (fields : List (String × Json)) : ClassificationResult :=
  { id := id
    importance := coerceImportance (getField fields "importance")
    reason := coerceReason (getField fields "reason")
    notify := coerceNotify (getField fields "notify") }

/-- The `resultsMap` built by the loop at `classifier.ts` lines 85-95:
only array items that are objects with a string `id` field are recorded;
a later item with the same id overwrites an earlier one (`Map.set`). -/
def resultsMap (items : List Json) : String → Option ClassificationResult :=
  items.foldl
    (fun m item =>
      match item with
      | .obj fields =>
        match getField fields "id" with
        | some (.str id) => fun k => if k = id then some (entryOfItem id fields) else m k
        | _ => m
      | _ => m)
    (fun _ => none)

/-- The per-id fail-open default of `classifier.ts` lines 99-104. -/
def missingDefault (id : String) : ClassificationResult :=
  { id := id
    importance := .high
    reason := "missing from classifier response — fail open"
    notify := true }

/-- `parseClassifierResponse` (`classifier.ts` lines 76-109).  The host
`JSON.parse` primitive is passed in as `parse` (`none` models a parse
exception); everything else is translated from the source. -/
def parseClassifierResponse (parse : String → Option Json) (text : String)
    (emailIds : List String) : List ClassificationResult :=
  if jsTrim text = "" then failOpenDefaults emailIds
  else
    match parse (cleanFences text) with
    | none => failOpenDefaults emailIds
    | some j =>
      match j with
      | .arr items => emailIds.map fun id => (resultsMap items id).getD (missingDefault id)
      | _ => failOpenDefaults emailIds

/-- `TrimmedEmail` from `types.ts` (`from` is a Lean keyword, renamed
`fromAddr`). -/
structure TrimmedEmail where
  id : String
  threadId : String
  account : String
  fromAddr : String
  toAddr : String
  subject : String
  date : String
  body : String
  threadLength : Nat
  hasAttachments : Bool
deriving DecidableEq, Repr

/-- `Classifier.classify` (`classifier.ts` lines 120-157): an empty batch
returns `[]` without calling the judgment engine; otherwise the extracted
response text is parsed (`agentText = none` models the catch branch where the
embedded agent call itself threw, which returns `failOpenDefaults`). -/
def classify (parse : String → Option Json) (agentText : Option String)
    (emails : List TrimmedEmail) : List ClassificationResult :=
  if emails.isEmpty then []
  else
    let emailIds := emails.map (·.id)
    match agentText with
    | some text => parseClassifierResponse parse text emailIds
    | none => failOpenDefaults emailIds

/-- Every verdict in `resultsMap` comes from an array item that is an object
whose string `id` field is the key, converted by `entryOfItem`. -/
theorem resultsMap_spec (items : List Json) :
    ∀ k r, resultsMap items k = some r →
      ∃ fields, getField fields "id" = some (Json.str k) ∧ r = entryOfItem k fields := by
  unfold resultsMap
  suffices h : ∀ (m : String → Option ClassificationResult),
      (∀ k r, m k = some r →
        ∃ fields, getField fields "id" = some (Json.str k) ∧ r = entryOfItem k fields) →
      ∀ k r,
        (items.foldl
          (fun m item =>
            match item with
            | .obj fields =>
              match getField fields "id" with
              | some (.str id) => fun k => if k = id then some (entryOfItem id fields) else m k
              | _ => m
            | _ => m)
          m) k = some r →
        ∃ fields, getField fields "id" = some (Json.str k) ∧ r = entryOfItem k fields by
    exact h (fun _ => none) (by intro k r hk; simp at hk)
  induction items with
  | nil => intro m hm; simpa using hm
  | cons item rest ih =>
    intro m hm k r
    simp only [List.foldl_cons]
    apply ih
    intro k' r' hk'
    cases item with
    | obj fields =>
      cases hid : getField fields "id" with
      | none => simp [hid] at hk'; exact hm k' r' hk'
      | some v =>
        cases v with
        | str id =>
          simp [hid] at hk'
          by_cases hkeq : k' = id
          · subst hkeq
            simp at hk'
            exact ⟨fields, hid, hk'.symm⟩
          · simp [hkeq] at hk'
            exact hm k' r' hk'
        | null => simp [hid] at hk'; exact hm k' r' hk'
        | bool b => simp [hid] at hk'; exact hm k' r' hk'
        | num n => simp [hid] at hk'; exact hm k' r' hk'
        | arr l => simp [hid] at hk'; exact hm k' r' hk'
        | obj l => simp [hid] at hk'; exact hm k' r' hk'
    | null => exact hm k' r' hk'
    | bool b => exact hm k' r' hk'
    | num n => exact hm k' r' hk'
    | str s => exact hm k' r' hk'
    | arr l => exact hm k' r' hk'

/-- Every verdict produced by `resultsMap` carries the id it is keyed by. -/
theorem resultsMap_id_eq (items : List Json) :
    ∀ k r, resultsMap items k = some r → r.id = k := by
  intro k r hk
  obtain ⟨fields, _, rfl⟩ := resultsMap_spec items k r hk
  rfl

/-- Each id is mapped to a verdict with that id, whatever the response. -/
theorem parseClassifierResponse_ids (parse : String → Option Json) (text : String)
    (emailIds : List String) :
    (parseClassifierResponse parse text emailIds).map (·.id) = emailIds := by
  unfold parseClassifierResponse
  have hfail : (failOpenDefaults emailIds).map (·.id) = emailIds := by
    unfold failOpenDefaults
    rw [List.map_map]
    exact List.map_id'' (fun _ => rfl) _
  split
  · exact hfail
  · cases hp : parse (cleanFences text) with
    | none => exact hfail
    | some j =>
      cases j with
      | arr items =>
        simp only [List.map_map]
        refine List.map_id'' (fun id => ?_) _
        cases hm : resultsMap items id with
        | none => simp [hm, missingDefault]
        | some r => simp [hm, resultsMap_id_eq items id r hm]
      | null => exact hfail
      | bool b => exact hfail
      | num n => exact hfail
      | str s => exact hfail
      | obj fields => exact hfail

/-- C1: for every list of input emails with N ids and every response text from
the judgment engine (including empty, unparseable, or malformed text),
`parseClassifierResponse` / `classify` return exactly N verdicts, one per
input id, in the same order as the input ids, with each verdict's id equal to
the corresponding input id. -/
theorem classify_total_coverage (parse : String → Option Json) (text : String)
    (emailIds : List String) (agentText : Option String) (emails : List TrimmedEmail) :
    (parseClassifierResponse parse text emailIds).map (·.id) = emailIds ∧
    (parseClassifierResponse parse text emailIds).length = emailIds.length ∧
    (classify parse agentText emails).map (·.id) = emails.map (·.id) ∧
    (classify parse agentText emails).length = emails.length := by
  have h1 := parseClassifierResponse_ids parse text emailIds
  have hlen : (parseClassifierResponse parse text emailIds).length = emailIds.length := by
    have := congrArg List.length h1
    simpa using this
  refine ⟨h1, hlen, ?_, ?_⟩
  · unfold classify
    split
    · next he =>
      rw [List.isEmpty_iff] at he
      simp [he]
    · cases agentText with
      | some t => exact parseClassifierResponse_ids parse t _
      | none =>
        simp only [failOpenDefaults, List.map_map]
        rfl
  · unfold classify
    split
    · next he =>
      rw [List.isEmpty_iff] at he
      simp [he]
    · cases agentText with
      | some t =>
        have := congrArg List.length (parseClassifierResponse_ids parse t (emails.map (·.id)))
        simpa using this
      | none => simp [failOpenDefaults]

/-- C2: fail-open policy of classification.  For every list of input ids: an
empty response text, a response failing structured parse, or a parsed
non-array response yields `importance high, notify true` for every input id; a
parseable array gives each id the last matching entry and fails exactly the
uncovered ids open, independently of the other ids; an importance outside
high/medium/low is coerced to high; a missing or non-boolean notify is coerced
to true; and a missing or non-string reason gets a placeholder string. -/
theorem classifier_fail_open (parse : String → Option Json) (ids : List String)
    (text : String) :
    (jsTrim text = "" → parseClassifierResponse parse text ids = failOpenDefaults ids) ∧
    (parse (cleanFences text) = none →
      parseClassifierResponse parse text ids = failOpenDefaults ids) ∧
    (∀ j, parse (cleanFences text) = some j → (∀ items, j ≠ Json.arr items) →
      parseClassifierResponse parse text ids = failOpenDefaults ids) ∧
    (∀ r ∈ failOpenDefaults ids, r.importance = .high ∧ r.notify = true) ∧
    (∀ items, jsTrim text ≠ "" → parse (cleanFences text) = some (Json.arr items) →
      parseClassifierResponse parse text ids =
        ids.map fun id => (resultsMap items id).getD (missingDefault id)) ∧
    (∀ items id, parse (cleanFences text) = some (Json.arr items) →
      resultsMap items id = none →
      ∀ r ∈ parseClassifierResponse parse text ids, r.id = id →
        r.importance = .high ∧ r.notify = true) ∧
    (∀ items k r, resultsMap items k = some r → ∃ fields, r = entryOfItem k fields) ∧
    (∀ id fields,
      (∀ s, getField fields "importance" = some (Json.str s) →
        s ≠ "high" ∧ s ≠ "medium" ∧ s ≠ "low") →
      (entryOfItem id fields).importance = .high) ∧
    (∀ id fields, (∀ b, getField fields "notify" ≠ some (Json.bool b)) →
      (entryOfItem id fields).notify = true) ∧
    (∀ id fields, (∀ s, getField fields "reason" ≠ some (Json.str s)) →
      (entryOfItem id fields).reason = "no reason given") := by
  refine ⟨?_, ?_, ?_, ?_, ?_, ?_, ?_, ?_, ?_, ?_⟩
  · intro h
    unfold parseClassifierResponse
    simp [h]
  · intro h
    unfold parseClassifierResponse
    by_cases ht : jsTrim text = ""
    · simp [ht]
    · simp only [ht, if_false]
      rw [h]
  · intro j hj hne
    unfold parseClassifierResponse
    by_cases ht : jsTrim text = ""
    · simp [ht]
    · simp only [ht, if_false]
      rw [hj]
      cases j with
      | arr items => exact absurd rfl (hne items)
      | null => rfl
      | bool b => rfl
      | num n => rfl
      | str s => rfl
      | obj fields => rfl
  · intro r hr
    unfold failOpenDefaults at hr
    obtain ⟨id, _, rfl⟩ := List.mem_map.mp hr
    exact ⟨rfl, rfl⟩
  · intro items ht hp
    unfold parseClassifierResponse
    simp only [ht, if_false]
    rw [hp]
  · intro items id hp hnone r hr hid
    by_cases ht : jsTrim text = ""
    · unfold parseClassifierResponse at hr
      rw [if_pos ht] at hr
      obtain ⟨id', _, rfl⟩ := List.mem_map.mp hr
      exact ⟨rfl, rfl⟩
    · unfold parseClassifierResponse at hr
      rw [if_neg ht, hp] at hr
      obtain ⟨id', _, rfl⟩ := List.mem_map.mp hr
      have hid' : ((resultsMap items id').getD (missingDefault id')).id = id' := by
        cases hm : resultsMap items id' with
        | none => rfl
        | some r' => simpa [hm] using resultsMap_id_eq items id' r' hm
      rw [hid] at hid'
      subst hid'
      rw [hnone]
      exact ⟨rfl, rfl⟩
  · intro items k r hk
    obtain ⟨fields, _, hr⟩ := resultsMap_spec items k r hk
    exact ⟨fields, hr⟩
  · intro id fields h
    unfold entryOfItem coerceImportance
    cases hv : getField fields "importance" with
    | none => rfl
    | some v =>
      cases v with
      | str s =>
        obtain ⟨h1, h2, h3⟩ := h s hv
        simp [h1, h2, h3]
      | null => rfl
      | bool b => rfl
      | num n => rfl
      | arr l => rfl
      | obj l => rfl
  · intro id fields h
    unfold entryOfItem coerceNotify
    cases hv : getField fields "notify" with
    | none => rfl
    | some v =>
      cases v with
      | bool b => exact absurd hv (h b)
      | null => rfl
      | str s => rfl
      | num n => rfl
      | arr l => rfl
      | obj l => rfl
  · intro id fields h
    unfold entryOfItem coerceReason
    cases hv : getField fields "reason" with
    | none => rfl
    | some v =>
      cases v with
      | str s => exact absurd hv (h s)
      | null => rfl
      | bool b => rfl
      | num n => rfl
      | arr l => rfl
      | obj l => rfl

/-- Concrete instances of the fail-open policy: a parse failure on "garbage",
an empty response, an importance value outside the allowed set, and an array
covering none of the input ids. -/
theorem classifier_fail_open_witness :
    parseClassifierResponse (fun _ => none) "garbage" ["a"] = failOpenDefaults ["a"] ∧
    parseClassifierResponse (fun _ => none) "" ["a", "b"] = failOpenDefaults ["a", "b"] ∧
    (entryOfItem "a" [("importance", Json.str "urgent")]).importance = .high ∧
    (∀ r ∈ parseClassifierResponse (fun _ => some (Json.arr [])) "[]" ["a"],
      r.id = "a" → r.importance = .high ∧ r.notify = true) :=
  ⟨(classifier_fail_open (fun _ => none) ["a"] "garbage").2.1 rfl,
   (classifier_fail_open (fun _ => none) ["a", "b"] "").1 rfl,
   (classifier_fail_open (fun _ => none) [] "").2.2.2.2.2.2.2.1 "a"
     [("importance", Json.str "urgent")]
     (by intro s hs; simp [getField] at hs; subst hs; decide),
   (classifier_fail_open (fun _ => some (Json.arr [])) ["a"] "[]").2.2.2.2.2.1 [] "a"
     rfl rfl⟩

/-! ## Digest (worklist) state machine, from `digest.ts` -/

/-- `DigestStatus` from `types.ts`. -/
inductive DigestStatus where
  | new
  | surfaced
  | deferred
  | handled
  | dismissed
deriving DecidableEq, Repr

/-- `DigestEntry` from `types.ts`.  The ISO-8601 timestamp strings
(`firstSeenAt`, `surfacedAt`, `deferredUntil`, `resolvedAt`) are modelled as
epoch milliseconds (`Int`); an optional field that is absent or empty (falsy
in JS) is `none`. -/
structure DigestEntry where
  id : String
  threadId : String
  account : String
  fromAddr : String
  subject : String
  date : String
  body : String
  importance : ImportanceLevel
  reason : String
  notify : Bool
  status : DigestStatus
  firstSeenAt : Int
  surfacedAt : Option Int := none
  deferredUntil : Option Int := none
  resolvedAt : Option Int := none
  dismissReason : Option String := none
deriving DecidableEq, Repr

/-- The `entries` record of `DigestState` (`types.ts`), as an association
list keyed by message id (JS records have unique keys; `Object.values`
iterates the values in order). -/
abbrev DigestEntries := List (String × DigestEntry)

/-- `this.state.entries[id]` — record lookup. -/
def lookupEntry : DigestEntries → String → Option DigestEntry
  | [], _ => none
  | (k, v) :: rest, id => if k = id then some v else lookupEntry rest id

/-- In-place mutation of the entry stored under `id` (a no-op when the id is
absent), the shape shared by all `DigestManager` transition methods. -/
def updateEntry : DigestEntries → String → (DigestEntry → DigestEntry) → DigestEntries
  | [], _, _ => []
  | (k, v) :: rest, id, f =>
    if k = id then (k, f v) :: updateEntry rest id f
    else (k, v) :: updateEntry rest id f

/-- `DigestManager.markSurfaced` (`digest.ts` lines 255-261). -/
def markSurfaced (now : Int) (entries : DigestEntries) (id : String) : DigestEntries :=
  updateEntry entries id fun e => { e with status := .surfaced, surfacedAt := some now }

/-- `DigestManager.markHandled` (`digest.ts` lines 263-269). -/
def markHandled (now : Int) (entries : DigestEntries) (id : String) : DigestEntries :=
  updateEntry entries id fun e => { e with status := .handled, resolvedAt := some now }

/-- `DigestManager.defer` (`digest.ts` lines 271-277): sets
`deferredUntil = Date.now() + minutes * 60_000`. -/
def defer (now : Int) (entries : DigestEntries) (id : String) (minutes : Int) : DigestEntries :=
  updateEntry entries id fun e =>
    { e with status := .deferred, deferredUntil := some (now + minutes * 60000) }

/-- `DigestManager.dismiss` (`digest.ts` lines 279-286): `dismissReason` is
only written when `reason` is truthy (present and non-empty). -/
def dismiss (now : Int) (entries : DigestEntries) (id : String) (reason : Option String) :
    DigestEntries :=
  updateEntry entries id fun e =>
    { e with status := .dismissed, resolvedAt := some now,
             dismissReason :=
               match reason with
               | some r => if r = "" then e.dismissReason else some r
               | none => e.dismissReason }

/-- The expiry test of `digest.ts` line 292:
`entry.status === "deferred" && entry.deferredUntil && new Date(entry.deferredUntil) <= now`. -/
def shouldExpire (now : Int) (e : DigestEntry) : Bool :=
  decide (e.status = .deferred) &&
    (match e.deferredUntil with
     | some t => decide (t ≤ now)
     | none => false)

/-- The mutation applied to an expiring entry (`digest.ts` lines 293-294). -/
def expireEntry (e : DigestEntry) : DigestEntry :=
  { e with status := .new, deferredUntil := none }

/-- `DigestManager.expireDeferrals` (`digest.ts` lines 288-299): returns the
mutated entries record together with the list of transitioned entries. -/
def expireDeferrals (now : Int) : DigestEntries → DigestEntries × List DigestEntry
  | [] => ([], [])
  | (k, e) :: rest =>
    let r := expireDeferrals now rest
    if shouldExpire now e then ((k, expireEntry e) :: r.1, expireEntry e :: r.2)
    else ((k, e) :: r.1, r.2)

theorem expireDeferrals_fst (now : Int) (entries : DigestEntries) :
    (expireDeferrals now entries).1 =
      entries.map fun p => if shouldExpire now p.2 then (p.1, expireEntry p.2) else p := by
  induction entries with
  | nil => rfl
  | cons p rest ih =>
    obtain ⟨k, e⟩ := p
    by_cases h : shouldExpire now e
    · simp [expireDeferrals, h, ih]
    · simp [expireDeferrals, h, ih]

theorem expireDeferrals_snd (now : Int) (entries : DigestEntries) :
    (expireDeferrals now entries).2 =
      ((entries.map Prod.snd).filter (shouldExpire now)).map expireEntry := by
  induction entries with
  | nil => rfl
  | cons p rest ih =>
    obtain ⟨k, e⟩ := p
    by_cases h : shouldExpire now e
    · simp [expireDeferrals, h, ih]
    · simp [expireDeferrals, h, ih]

/-- C5: `expireDeferrals` transitions exactly the entries whose status is
`deferred` with `deferredUntil` at or before now: each becomes `new` with
`deferredUntil` cleared and is in the returned list; every other entry is
unchanged, and the returned list consists of exactly the transitioned
entries, in order. -/
theorem expireDeferrals_correct (now : Int) (entries : DigestEntries) :
    (expireDeferrals now entries).1.length = entries.length ∧
    (∀ e : DigestEntry, shouldExpire now e = true ↔
      e.status = .deferred ∧ ∃ t, e.deferredUntil = some t ∧ t ≤ now) ∧
    (∀ i (h : i < entries.length) (h' : i < (expireDeferrals now entries).1.length),
      (shouldExpire now (entries.get ⟨i, h⟩).2 = true →
        (expireDeferrals now entries).1.get ⟨i, h'⟩ =
            ((entries.get ⟨i, h⟩).1, expireEntry (entries.get ⟨i, h⟩).2) ∧
          ((expireDeferrals now entries).1.get ⟨i, h'⟩).2.status = .new ∧
          ((expireDeferrals now entries).1.get ⟨i, h'⟩).2.deferredUntil = none ∧
          expireEntry (entries.get ⟨i, h⟩).2 ∈ (expireDeferrals now entries).2) ∧
      (shouldExpire now (entries.get ⟨i, h⟩).2 = false →
        (expireDeferrals now entries).1.get ⟨i, h'⟩ = entries.get ⟨i, h⟩)) ∧
    ((expireDeferrals now entries).2 =
      ((entries.map Prod.snd).filter (shouldExpire now)).map expireEntry) := by
  have hfst := expireDeferrals_fst now entries
  have hsnd := expireDeferrals_snd now entries
  refine ⟨by rw [hfst]; simp, ?_, ?_, hsnd⟩
  · intro e
    unfold shouldExpire
    cases hd : e.deferredUntil with
    | none =>
      simp [hd]
    | some t =>
      constructor
      · intro h
        simp [hd] at h
        exact ⟨h.1, t, rfl, h.2⟩
      · rintro ⟨h1, t', ht', h2⟩
        injection ht' with ht'
        subst ht'
        simp [h1, h2]
  · intro i h h'
    constructor
    · intro hexp
      rw [List.get_eq_getElem] at hexp
      have hget : (expireDeferrals now entries).1.get ⟨i, h'⟩ =
          ((entries.get ⟨i, h⟩).1, expireEntry (entries.get ⟨i, h⟩).2) := by
        have := List.get_of_eq hfst ⟨i, h'⟩
        rw [this, List.get_map]
        simp [hexp]
      refine ⟨hget, by rw [hget]; rfl, by rw [hget]; rfl, ?_⟩
      rw [hsnd]
      refine List.mem_map_of_mem expireEntry (List.mem_filter.mpr ⟨?_, hexp⟩)
      have : entries[i] ∈ entries := List.getElem_mem _
      exact List.mem_map_of_mem Prod.snd this
    · intro hnexp
      rw [List.get_eq_getElem] at hnexp
      have := List.get_of_eq hfst ⟨i, h'⟩
      rw [this, List.get_map]
      simp [hnexp]

/-- A fixed digest entry used to instantiate the lifecycle theorems. -/
def mkEntry (id : String) (st : DigestStatus) (du : Option Int) : DigestEntry :=
  { id := id, threadId := "t-1", account := "a@x.com", fromAddr := "s@x.com",
    subject := "Subject", date := "2026-02-26", body := "Body",
    importance := .high, reason := "urgent", notify := true,
    status := st, firstSeenAt := 0,
    surfacedAt := none, deferredUntil := du, resolvedAt := none, dismissReason := none }

/-- Instance of C5 on a two-entry digest at time 100: the deferral due at 50
expires (status `new`, `deferredUntil` cleared, present in the returned list)
while the deferral due at 200 is untouched. -/
theorem expireDeferrals_correct_witness :
    (expireDeferrals 100
        [("1", mkEntry "1" .deferred (some 50)), ("2", mkEntry "2" .deferred (some 200))]).1.get
        ⟨0, by decide⟩ = ("1", expireEntry (mkEntry "1" .deferred (some 50))) ∧
    expireEntry (mkEntry "1" .deferred (some 50)) ∈
      (expireDeferrals 100
        [("1", mkEntry "1" .deferred (some 50)), ("2", mkEntry "2" .deferred (some 200))]).2 ∧
    (expireDeferrals 100
        [("1", mkEntry "1" .deferred (some 50)), ("2", mkEntry "2" .deferred (some 200))]).1.get
        ⟨1, by decide⟩ = ("2", mkEntry "2" .deferred (some 200)) := by
  have h := expireDeferrals_correct 100
    [("1", mkEntry "1" .deferred (some 50)), ("2", mkEntry "2" .deferred (some 200))]
  have h0 := (h.2.2.1 0 (by decide) (by decide)).1 (by decide)
  have h1 := (h.2.2.1 1 (by decide) (by decide)).2 (by decide)
  exact ⟨h0.1, h0.2.2.2, h1⟩

/-- Every entry in the list returned by `expireDeferrals` has been reset to
status `new`. -/
theorem expired_mem_status_new (now : Int) (entries : DigestEntries) :
    ∀ x ∈ (expireDeferrals now entries).2, x.status = .new := by
  intro x hx
  rw [expireDeferrals_snd] at hx
  obtain ⟨y, _, rfl⟩ := List.mem_map.mp hx
  rfl

/-- C10: an entry whose status is `deferred` but whose `deferredUntil` is
unset (absent or empty, i.e. falsy) is never transitioned by
`expireDeferrals`: it stays unchanged and never appears in the returned list,
for every current time. -/
theorem deferred_without_until_never_expires (now : Int) (entries : DigestEntries)
    (i : Nat) (h : i < entries.length)
    (hst : (entries.get ⟨i, h⟩).2.status = .deferred)
    (hdu : (entries.get ⟨i, h⟩).2.deferredUntil = none) :
    ∃ h' : i < (expireDeferrals now entries).1.length,
      (expireDeferrals now entries).1.get ⟨i, h'⟩ = entries.get ⟨i, h⟩ ∧
      (entries.get ⟨i, h⟩).2 ∉ (expireDeferrals now entries).2 := by
  have hfst := expireDeferrals_fst now entries
  have hlen : (expireDeferrals now entries).1.length = entries.length := by
    rw [hfst]; simp
  have hnexp : shouldExpire now (entries.get ⟨i, h⟩).2 = false := by
    unfold shouldExpire
    rw [hdu]
    simp
  rw [List.get_eq_getElem] at hnexp
  refine ⟨by rw [hlen]; exact h, ?_, ?_⟩
  · have := List.get_of_eq hfst ⟨i, by rw [hlen]; exact h⟩
    rw [this, List.get_map]
    simp [hnexp]
  · intro hmem
    have := expired_mem_status_new now entries _ hmem
    rw [hst] at this
    exact DigestStatus.noConfusion this

/-- Instance of C10: a `deferred` entry with no `deferredUntil` survives
`expireDeferrals` unchanged and is not in the returned list. -/
theorem deferred_without_until_never_expires_witness :
    ∃ h' : 0 < (expireDeferrals 100 [("1", mkEntry "1" .deferred none)]).1.length,
      (expireDeferrals 100 [("1", mkEntry "1" .deferred none)]).1.get ⟨0, h'⟩ =
        ("1", mkEntry "1" .deferred none) ∧
      (mkEntry "1" .deferred none) ∉ (expireDeferrals 100 [("1", mkEntry "1" .deferred none)]).2 :=
  deferred_without_until_never_expires 100 [("1", mkEntry "1" .deferred none)] 0 (by decide)
    (by decide) (by decide)

theorem updateEntry_no_match (entries : DigestEntries) (id : String)
    (f : DigestEntry → DigestEntry) (h : ∀ p ∈ entries, p.1 ≠ id) :
    updateEntry entries id f = entries := by
  induction entries with
  | nil => rfl
  | cons p rest ih =>
    obtain ⟨k, v⟩ := p
    have hp : k ≠ id := h (k, v) (List.mem_cons_self _ _)
    unfold updateEntry
    rw [if_neg hp, ih fun q hq => h q (List.mem_cons_of_mem _ hq)]

theorem lookupEntry_updateEntry_self (entries : DigestEntries) (id : String)
    (f : DigestEntry → DigestEntry) (e : DigestEntry)
    (h : lookupEntry entries id = some e) :
    lookupEntry (updateEntry entries id f) id = some (f e) := by
  induction entries with
  | nil => simp [lookupEntry] at h
  | cons p rest ih =>
    obtain ⟨k, v⟩ := p
    by_cases hk : k = id
    · subst hk
      unfold lookupEntry at h
      rw [if_pos rfl] at h
      injection h with h
      subst h
      unfold updateEntry
      rw [if_pos rfl]
      unfold lookupEntry
      rw [if_pos rfl]
    · unfold lookupEntry at h
      rw [if_neg hk] at h
      unfold updateEntry
      rw [if_neg hk]
      unfold lookupEntry
      rw [if_neg hk]
      exact ih h

/-- C7: each transition operation (`markSurfaced`, `markHandled`, `defer`,
`dismiss`) is a no-op (state unchanged, no error — the operations are total)
on an id that is not present; on a present id it sets the status and the
associated timestamp field. -/
theorem transitions_missing_or_present (now : Int) (entries : DigestEntries)
    (id : String) (minutes : Int) (reason : Option String) :
    ((∀ p ∈ entries, p.1 ≠ id) →
      markSurfaced now entries id = entries ∧
      markHandled now entries id = entries ∧
      defer now entries id minutes = entries ∧
      dismiss now entries id reason = entries) ∧
    (∀ e, lookupEntry entries id = some e →
      lookupEntry (markSurfaced now entries id) id =
        some { e with status := .surfaced, surfacedAt := some now } ∧
      lookupEntry (markHandled now entries id) id =
        some { e with status := .handled, resolvedAt := some now } ∧
      lookupEntry (defer now entries id minutes) id =
        some { e with status := .deferred, deferredUntil := some (now + minutes * 60000) } ∧
      ∃ e', lookupEntry (dismiss now entries id reason) id = some e' ∧
        e'.status = .dismissed ∧ e'.resolvedAt = some now) := by
  constructor
  · intro h
    exact ⟨updateEntry_no_match _ _ _ h, updateEntry_no_match _ _ _ h,
      updateEntry_no_match _ _ _ h, updateEntry_no_match _ _ _ h⟩
  · intro e he
    refine ⟨lookupEntry_updateEntry_self _ _ _ _ he,
      lookupEntry_updateEntry_self _ _ _ _ he,
      lookupEntry_updateEntry_self _ _ _ _ he,
      _, lookupEntry_updateEntry_self _ _ _ _ he, rfl, rfl⟩

/-- Instance of C7: on a one-entry digest, all four transitions are no-ops
for the unknown id "zzz", and `defer` on the present id sets the status and
`deferredUntil`. -/
theorem transitions_missing_or_present_witness :
    markSurfaced 100 [("a", mkEntry "a" .new none)] "zzz" = [("a", mkEntry "a" .new none)] ∧
    dismiss 100 [("a", mkEntry "a" .new none)] "zzz" (some "r") =
      [("a", mkEntry "a" .new none)] ∧
    lookupEntry (defer 100 [("a", mkEntry "a" .new none)] "a" 30) "a" =
      some { mkEntry "a" .new none with
               status := .deferred,
               deferredUntil := some (100 + 30 * 60000) } := by
  have hm := (transitions_missing_or_present 100 [("a", mkEntry "a" .new none)] "zzz" 30
    (some "r")).1 (by decide)
  have hp := (transitions_missing_or_present 100 [("a", mkEntry "a" .new none)] "a" 30
    (some "r")).2 (mkEntry "a" .new none) (by decide)
  exact ⟨hm.1, hm.2.2.2, hp.2.2.1⟩

/-! ## Consumer-facing tools, from `tools/defer-email.ts`,
`tools/dismiss-email.ts` and `tools/mark-email-handled.ts` -/

/-- Rendering of a status for the defer tool's rejection message. -/
def statusStr : DigestStatus → String
  | .new => "new"
  | .surfaced => "surfaced"
  | .deferred => "deferred"
  | .handled => "handled"
  | .dismissed => "dismissed"

/-- The `execute` body of `createDeferEmailTool` (`defer-email.ts`): validates
`messageId` (non-empty) and `minutes` (positive; the NaN and Infinity rejects
of the source have no `Int` counterpart), rejects terminal or already
deferred entries, and only then mutates.  Returns the response text and the
resulting digest state. -/
def deferEmailExec (now : Int) (entries : DigestEntries) (messageId : String)
    (minutes : Int) : String × DigestEntries :=
  if messageId = "" then ("Error: messageId must be a non-empty string.", entries)
  else if minutes ≤ 0 then ("Error: minutes must be a positive number.", entries)
  else
    match lookupEntry entries messageId with
    | none => (s!"Email {messageId} not found in digest.", entries)
    | some entry =>
      if entry.status = .handled ∨ entry.status = .dismissed ∨ entry.status = .deferred then
        (s!"Cannot defer: email is already \"{statusStr entry.status}\".", entries)
      else
        (s!"Deferred \"{entry.subject}\" — will re-surface in {minutes} minutes.",
         defer now entries messageId minutes)

/-- The `execute` body of `createDismissEmailTool` (`dismiss-email.ts`): after
the not-found check it calls `digest.dismiss` unconditionally — there is no
terminal-state guard in the source. -/
def dismissEmailExec (now : Int) (entries : DigestEntries) (messageId : String)
    (reason : Option String) : String × DigestEntries :=
  match lookupEntry entries messageId with
  | none => (s!"Email {messageId} not found in digest.", entries)
  | some entry =>
    (s!"Dismissed \"{entry.subject}\" from {entry.fromAddr}. It won't be flagged again.",
     dismiss now entries messageId reason)

/-- The `execute` body of `createMarkEmailHandledTool`
(`mark-email-handled.ts`): after the not-found check it calls
`digest.markHandled` unconditionally — there is no terminal-state guard in
the source. -/
def markEmailHandledExec (now : Int) (entries : DigestEntries) (messageId : String) :
    String × DigestEntries :=
  match lookupEntry entries messageId with
  | none => (s!"Email {messageId} not found in digest.", entries)
  | some entry =>
    (s!"Marked \"{entry.subject}\" from {entry.fromAddr} as handled.",
     markHandled now entries messageId)

/-- C6 exhibit: the defer tool does reject an entry already `deferred`
without mutating it, but the mark-handled tool applied to an entry already
`dismissed` — and the dismiss tool applied to an entry already `handled` —
mutate the terminal-state entry (status and `resolvedAt` are rewritten),
contradicting the claimed caller-layer guard. -/
theorem tool_terminal_state_exhibit :
    (deferEmailExec 1000 [("m", mkEntry "m" .deferred none)] "m" 30).2 =
      [("m", mkEntry "m" .deferred none)] ∧
    (markEmailHandledExec 1000 [("m", mkEntry "m" .dismissed none)] "m").2 =
      [("m", { mkEntry "m" .dismissed none with
                 status := .handled,
                 resolvedAt := some 1000 })] ∧
    (dismissEmailExec 1000 [("h", mkEntry "h" .handled none)] "h" none).2 =
      [("h", { mkEntry "h" .handled none with
                 status := .dismissed,
                 resolvedAt := some 1000 })] := by
  refine ⟨by decide, by decide, by decide⟩

/-! ## Adaptive clock, from `scheduler.ts` -/

/-- `WorkHoursConfig` from `types.ts` (`end` is a Lean keyword, renamed
`endH`). -/
structure WorkHoursConfig where
  start : Int
  endH : Int
  timezone : String

/-- `PollIntervalConfig` from `types.ts` (interval lengths in minutes). -/
structure PollIntervalConfig where
  workHours : Int
  offHours : Int

/-- `isWorkHours` (`scheduler.ts` lines 3-10): `hour` is the hour of "now" in
the configured timezone, as extracted by the host `Intl.DateTimeFormat`
primitive; the check itself is `hour >= config.start && hour < config.end`. -/
def isWorkHours (hour : Int) (config : WorkHoursConfig) : Bool :=
  decide (config.start ≤ hour) && decide (hour < config.endH)

/-- `getIntervalMs` (`scheduler.ts` lines 13-20). -/
def getIntervalMs (hour : Int) (intervals : PollIntervalConfig)
    (workConfig : WorkHoursConfig) : Int :=
  (if isWorkHours hour workConfig then intervals.workHours else intervals.offHours) * 60 * 1000

/-- C9: `isWorkHours` is true exactly on the half-open hour interval
`[start, end)` — in particular true at the exact start hour (when the window
is non-degenerate) and false at the exact end hour — and `getIntervalMs`
returns the work-hours interval in milliseconds exactly when `isWorkHours`
is true, otherwise the off-hours interval. -/
theorem work_hours_half_open (hour : Int) (cfg : WorkHoursConfig)
    (intervals : PollIntervalConfig) :
    (isWorkHours hour cfg = true ↔ cfg.start ≤ hour ∧ hour < cfg.endH) ∧
    (cfg.start < cfg.endH → isWorkHours cfg.start cfg = true) ∧
    isWorkHours cfg.endH cfg = false ∧
    (isWorkHours hour cfg = true →
      getIntervalMs hour intervals cfg = intervals.workHours * 60 * 1000) ∧
    (isWorkHours hour cfg = false →
      getIntervalMs hour intervals cfg = intervals.offHours * 60 * 1000) := by
  refine ⟨?_, ?_, ?_, ?_, ?_⟩
  · simp [isWorkHours]
  · intro h
    simp [isWorkHours, h]
  · simp [isWorkHours]
  · intro h
    simp [getIntervalMs, h]
  · intro h
    simp [getIntervalMs, h]

/-- Instance of C9 at the default 9-18 window: true at hour 9, false at hour
18, and the corresponding intervals in milliseconds. -/
theorem work_hours_half_open_witness :
    isWorkHours 9 ⟨9, 18, "Europe/London"⟩ = true ∧
    isWorkHours 18 ⟨9, 18, "Europe/London"⟩ = false ∧
    getIntervalMs 9 ⟨5, 30⟩ ⟨9, 18, "Europe/London"⟩ = 5 * 60 * 1000 ∧
    getIntervalMs 18 ⟨5, 30⟩ ⟨9, 18, "Europe/London"⟩ = 30 * 60 * 1000 := by
  have h9 := work_hours_half_open 9 ⟨9, 18, "Europe/London"⟩ ⟨5, 30⟩
  have h18 := work_hours_half_open 18 ⟨9, 18, "Europe/London"⟩ ⟨5, 30⟩
  have hw : isWorkHours 9 ⟨9, 18, "Europe/London"⟩ = true := h9.2.1 (by decide)
  have hn : isWorkHours 18 ⟨9, 18, "Europe/London"⟩ = false := h18.2.2.1
  exact ⟨hw, hn, h9.2.2.2.1 hw, h18.2.2.2.2 hn⟩

/-! ## Durable store, from `atomic.ts`

The file system is a map from path to file content; the `writeFile`,
`rename` and `unlink` calls of `atomicWrite` are its primitive steps.
`rename` is atomic (POSIX), `writeFile` is not: a failure or crash during it
may leave the temporary file absent, partial or complete.  A `WriteScenario`
injects where (if anywhere) the sequence fails or the process crashes. -/

/-- File-system state: path to content, `none` when the file is absent. -/
abbrev FS := String → Option String

/-- Writing, deleting or renaming a single path. -/
def setFile (fs : FS) (p : String) (v : Option String) : FS :=
  fun q => if q = p then v else fs q

/-- Failure injection for one `atomicWrite` call.  `ok`: both steps succeed.
`crash s`: the process dies during/after `writeFile` leaving the temp file
in state `s`, before the rename.  `crashAfterRename`: the process dies after
the rename completed.  `writeFails s u` / `renameFails u`: the step throws
(`s` is the temp-file state left by the failed write, `u` tells whether the
best-effort `unlink` of the cleanup path itself succeeds). -/
inductive WriteScenario where
  | ok
  | crash (tmpState : Option String)
  | crashAfterRename
  | writeFails (tmpState : Option String) (unlinkOk : Bool)
  | renameFails (unlinkOk : Bool)

/-- Outcome of the call as seen by the caller. -/
inductive WriteOutcome where
  | completed
  | raised
  | crashed
deriving DecidableEq, Repr

/-- The temporary sibling path
`` dir/.basename.hex.tmp `` built at `atomic.ts` line 13 (`hex` stands for
the `crypto.randomBytes(4)` output). -/
def tmpPath (dir base hex : String) : String :=
  dir ++ "/." ++ base ++ "." ++ hex ++ ".tmp"

/-- The target path `dir/basename`. -/
def targetPath (dir base : String) : String := dir ++ "/" ++ base

/-- `atomicWrite` (`atomic.ts` lines 10-26) under a failure scenario: write
the content to the temporary sibling, rename it over the target; on a
failure after the temp file is created, best-effort delete the temp file and
re-raise.  (The idempotent `mkdir` does not touch either file.) -/
def atomicWrite (fs : FS) (dir base hex content : String) (sc : WriteScenario) :
    FS × WriteOutcome :=
  let target := targetPath dir base
  let tmp := tmpPath dir base hex
  match sc with
  | .ok =>
    let fs1 := setFile fs tmp (some content)
    (setFile (setFile fs1 tmp none) target (some content), .completed)
  | .crash tmpState => (setFile fs tmp tmpState, .crashed)
  | .crashAfterRename =>
    let fs1 := setFile fs tmp (some content)
    (setFile (setFile fs1 tmp none) target (some content), .crashed)
  | .writeFails tmpState unlinkOk =>
    let fs1 := setFile fs tmp tmpState
    ((if unlinkOk then setFile fs1 tmp none else fs1), .raised)
  | .renameFails unlinkOk =>
    let fs1 := setFile fs tmp (some content)
    ((if unlinkOk then setFile fs1 tmp none else fs1), .raised)

/-- The temporary sibling never collides with the target (their lengths
differ). -/
theorem tmpPath_ne_targetPath (dir base hex : String) :
    tmpPath dir base hex ≠ targetPath dir base := by
  intro h
  have hlen := congrArg String.length h
  simp only [tmpPath, targetPath, String.length_append] at hlen
  have h1 : ("/." : String).length = 2 := rfl
  have h2 : ("." : String).length = 1 := rfl
  have h3 : (".tmp" : String).length = 4 := rfl
  have h4 : ("/" : String).length = 1 := rfl
  rw [h1, h2, h3, h4] at hlen
  omega

/-- C8: for every prior file system, path and content, and every failure
scenario, the target is always either its prior complete content or the new
complete content (never a partial state); on success the target holds the
new content and no temp file is left; on an error the error is re-raised,
the target is untouched, and — when the cleanup unlink succeeds — the temp
file is removed. -/
theorem atomicWrite_atomic (fs : FS) (dir base hex content : String)
    (sc : WriteScenario) :
    ((atomicWrite fs dir base hex content sc).1 (targetPath dir base) =
        fs (targetPath dir base) ∨
      (atomicWrite fs dir base hex content sc).1 (targetPath dir base) = some content) ∧
    ((atomicWrite fs dir base hex content sc).2 = .completed →
      (atomicWrite fs dir base hex content sc).1 (targetPath dir base) = some content ∧
      (atomicWrite fs dir base hex content sc).1 (tmpPath dir base hex) = none) ∧
    ((atomicWrite fs dir base hex content sc).2 = .raised →
      (atomicWrite fs dir base hex content sc).1 (targetPath dir base) =
        fs (targetPath dir base)) ∧
    (∀ tmpState, sc = .writeFails tmpState true →
      (atomicWrite fs dir base hex content sc).1 (tmpPath dir base hex) = none ∧
      (atomicWrite fs dir base hex content sc).2 = .raised) ∧
    (sc = .renameFails true →
      (atomicWrite fs dir base hex content sc).1 (tmpPath dir base hex) = none ∧
      (atomicWrite fs dir base hex content sc).2 = .raised) := by
  have hne := tmpPath_ne_targetPath dir base hex
  have hne' : targetPath dir base ≠ tmpPath dir base hex := fun h => hne h.symm
  cases sc with
  | ok =>
    refine ⟨Or.inr ?_, fun _ => ⟨?_, ?_⟩, fun h => by simp [atomicWrite] at h, ?_, ?_⟩
    · simp [atomicWrite, setFile]
    · simp [atomicWrite, setFile]
    · simp [atomicWrite, setFile, hne]
    · intro t h; exact WriteScenario.noConfusion h
    · intro h; exact WriteScenario.noConfusion h
  | crash tmpState =>
    refine ⟨Or.inl ?_, fun h => by simp [atomicWrite] at h,
      fun h => by simp [atomicWrite] at h, ?_, ?_⟩
    · simp [atomicWrite, setFile, hne']
    · intro t h; exact WriteScenario.noConfusion h
    · intro h; exact WriteScenario.noConfusion h
  | crashAfterRename =>
    refine ⟨Or.inr ?_, fun h => by simp [atomicWrite] at h,
      fun h => by simp [atomicWrite] at h, ?_, ?_⟩
    · simp [atomicWrite, setFile]
    · intro t h; exact WriteScenario.noConfusion h
    · intro h; exact WriteScenario.noConfusion h
  | writeFails tmpState unlinkOk =>
    refine ⟨Or.inl ?_, fun h => by simp [atomicWrite] at h, fun _ => ?_, ?_, ?_⟩
    · cases unlinkOk <;> simp [atomicWrite, setFile, hne']
    · cases unlinkOk <;> simp [atomicWrite, setFile, hne']
    · intro t h
      injection h with h1 h2
      subst h1; subst h2
      exact ⟨by simp [atomicWrite, setFile], rfl⟩
    · intro h; exact WriteScenario.noConfusion h
  | renameFails unlinkOk =>
    refine ⟨Or.inl ?_, fun h => by simp [atomicWrite] at h, fun _ => ?_, ?_, ?_⟩
    · cases unlinkOk <;> simp [atomicWrite, setFile, hne']
    · cases unlinkOk <;> simp [atomicWrite, setFile, hne']
    · intro t h; exact WriteScenario.noConfusion h
    · intro h
      injection h with h1
      subst h1
      exact ⟨by simp [atomicWrite, setFile], rfl⟩

/-- Instance of C8: on an empty file system with a failing rename (cleanup
succeeding), the target is untouched and the temp file removed; on success
the target holds the new content. -/
theorem atomicWrite_atomic_witness :
    (atomicWrite (fun _ => none) "d" "f.json" "abcd" "data"
        (.renameFails true)).1 (targetPath "d" "f.json") = none ∧
    (atomicWrite (fun _ => none) "d" "f.json" "abcd" "data"
        (.renameFails true)).1 (tmpPath "d" "f.json" "abcd") = none ∧
    (atomicWrite (fun _ => none) "d" "f.json" "abcd" "data"
        .ok).1 (targetPath "d" "f.json") = some "data" := by
  have hr := atomicWrite_atomic (fun _ => none) "d" "f.json" "abcd" "data" (.renameFails true)
  have ho := atomicWrite_atomic (fun _ => none) "d" "f.json" "abcd" "data" .ok
  exact ⟨hr.2.2.1 rfl, (hr.2.2.2.2 rfl).1, (ho.2.1 rfl).1⟩

/-! ## Source synchronizer and checkpoint store, from `poller.ts` -/

/-- The fields of a raw gog message used by the sync path. -/
structure RawGogMessage where
  id : String
  threadId : String
deriving DecidableEq, Repr

/-- Result of `Poller.runGog`. -/
structure GogResult where
  stdout : String
  ok : Bool
deriving DecidableEq, Repr

/-- Outcome of the host `runCommandWithTimeout` call: a process exit (with
code and streams) or a thrown error (spawn failure, timeout). -/
inductive CmdOutcome where
  | exit (code : Int) (stdout stderr : String)
  | threw
deriving DecidableEq, Repr

/-- `Poller.runGog` (`poller.ts` lines 111-126): a non-zero exit code or a
thrown error is caught, logged, and turned into `{stdout: "", ok: false}` —
it never re-raises. -/
def runGog : CmdOutcome → GogResult
  | .exit code stdout _ => if code ≠ 0 then ⟨"", false⟩ else ⟨stdout, true⟩
  | .threw => ⟨"", false⟩

/-- The fetch phase of `Poller.pollAccount` (`poller.ts` lines 138-166).
`parseMsgs` abstracts `parseGogMessages` applied to a successful stdout;
`historyId` is the stored cursor (`none` or `""` is falsy).  With a cursor:
try the incremental history call; on failure fall back to the bounded
rescan; if that also fails, return `[]` — no error is raised.  Without a
cursor: go straight to the rescan, returning `[]` on failure. -/
def pollAccountFetch (parseMsgs : String → List RawGogMessage) (historyId : Option String)
    (incr fallback rescan : CmdOutcome) : List RawGogMessage :=
  match historyId with
  | some h =>
    if h ≠ "" then
      let r := runGog incr
      if r.ok = false then
        let fb := runGog fallback
        if fb.ok = false then [] else parseMsgs fb.stdout
      else parseMsgs r.stdout
    else
      let r := runGog rescan
      if r.ok = false then [] else parseMsgs r.stdout
  | none =>
    let r := runGog rescan
    if r.ok = false then [] else parseMsgs r.stdout

/-- `Poller.pollAccount` (`poller.ts` lines 138-197): the per-message loop
(seen-id filter, thread fetch, owner-reply drop, trimming — all built from
non-throwing pieces) is abstracted as `processMsg`.  The function is total:
it always resolves (`Except.ok`), never rejects on a fetch failure. -/
def pollAccount (parseMsgs : String → List RawGogMessage)
    (processMsg : RawGogMessage → Option TrimmedEmail) (historyId : Option String)
    (incr fallback rescan : CmdOutcome) : Except String (List TrimmedEmail) :=
  Except.ok ((pollAccountFetch parseMsgs historyId incr fallback rescan).filterMap processMsg)

/-- `AccountState` from `types.ts`. -/
structure AccountState where
  historyId : String
  lastPollAt : String
  consecutiveFailures : Nat
deriving DecidableEq, Repr

/-- The `accounts` record of `PollState`. -/
abbrev PollAccounts := List (String × AccountState)

/-- `this.state.accounts[account]` — record lookup. -/
def getAccountState : PollAccounts → String → Option AccountState
  | [], _ => none
  | (k, v) :: rest, account => if k = account then some v else getAccountState rest account

/-- Record assignment `this.state.accounts[account] = ...`. -/
def setAccount : PollAccounts → String → AccountState → PollAccounts
  | [], k, v => [(k, v)]
  | (k', v') :: rest, k, v =>
    if k' = k then (k, v) :: rest else (k', v') :: setAccount rest k v

/-- `Poller.recordSuccess` (`poller.ts` lines 92-98): sets the cursor and
poll time and resets the failure counter to 0. -/
def recordSuccess (accounts : PollAccounts) (account historyId nowIso : String) :
    PollAccounts :=
  setAccount accounts account ⟨historyId, nowIso, 0⟩

/-- `Poller.recordFailure` (`poller.ts` lines 100-109): increments and
returns the consecutive-failure counter, preserving the existing cursor. -/
def recordFailure (accounts : PollAccounts) (account : String) : Nat × PollAccounts :=
  let existing := getAccountState accounts account
  let failures := (match existing with | some s => s.consecutiveFailures | none => 0) + 1
  (failures,
   setAccount accounts account
     ⟨(match existing with | some s => s.historyId | none => ""),
      (match existing with | some s => s.lastPollAt | none => ""),
      failures⟩)

/-- The per-account half of the sync loop of `runPipeline` (`pipeline.ts`
lines 73-100): a resolved `pollAccount` leads to `recordSuccess` (with the
prior cursor), a rejected one to `recordFailure`.  The returned flag records
which branch ran. -/
def pipelineAccountStep (accounts : PollAccounts) (account nowIso : String)
    (pollResult : Except String (List TrimmedEmail)) : PollAccounts × Bool :=
  match pollResult with
  | .ok _ =>
    (recordSuccess accounts account
      (match getAccountState accounts account with | some s => s.historyId | none => "")
      nowIso,
     false)
  | .error _ => ((recordFailure accounts account).2, true)

/-- C3 exhibit: `pollAccount` always resolves — a fetch failure of both the
incremental request and the fallback rescan yields `Except.ok []`, not a
rejection — so the pipeline records a success, resetting the account's
consecutive-failure counter to 0, where the claim requires `recordFailure`
to increment it (here: to 3).  Other accounts are unaffected either way. -/
theorem poll_failure_swallowed_exhibit :
    (∀ (parseMsgs : String → List RawGogMessage)
        (processMsg : RawGogMessage → Option TrimmedEmail)
        (historyId : Option String) (incr fallback rescan : CmdOutcome),
      ∃ l, pollAccount parseMsgs processMsg historyId incr fallback rescan = Except.ok l) ∧
    pollAccount (fun _ => []) (fun _ => none) (some "H1")
        CmdOutcome.threw (CmdOutcome.exit 1 "" "err") (CmdOutcome.exit 0 "[]" "") =
      Except.ok [] ∧
    pipelineAccountStep [("a", ⟨"H1", "t0", 2⟩)] "a" "t1" (Except.ok []) =
      ([("a", ⟨"H1", "t1", 0⟩)], false) ∧
    (recordFailure [("a", ⟨"H1", "t0", 2⟩)] "a").1 = 3 ∧
    (recordFailure [("a", ⟨"H1", "t0", 2⟩)] "a").2 = [("a", ⟨"H1", "t0", 3⟩)] :=
  ⟨fun _ _ _ _ _ _ => ⟨_, rfl⟩, rfl, rfl, rfl, rfl⟩

/-! ## Verdict fan-out, from `pipeline.ts` -/

/-- `EmailLogEntry` from `types.ts` (timestamp as an abstract number). -/
structure EmailLogEntry where
  email : TrimmedEmail
  importance : ImportanceLevel
  reason : String
  notify : Bool
  timestamp : Int
deriving DecidableEq, Repr

/-- `formatPushMessage` (`pipeline.ts` lines 167-179). -/
def formatPushMessage (email : TrimmedEmail) (result : ClassificationResult) : String :=
  String.intercalate "\n"
    ["[BetterEmail] New high-importance email:",
     s!"From: {email.fromAddr}",
     s!"Subject: {email.subject}",
     s!"Account: {email.account}",
     s!"Date: {email.date}",
     s!"Reason: {result.reason}",
     s!"MessageID: {email.id}",
     "",
     "Use defer_email to postpone or mark_email_handled when resolved."]

/-- The digest entry built at `pipeline.ts` lines 126-139. -/
def digestEntryOfVerdict (now : Int) (email : TrimmedEmail)
    (result : ClassificationResult) : DigestEntry :=
  { id := email.id, threadId := email.threadId, account := email.account,
    fromAddr := email.fromAddr, subject := email.subject, date := email.date,
    body := email.body, importance := result.importance, reason := result.reason,
    notify := result.notify, status := .new, firstSeenAt := now,
    surfacedAt := none, deferredUntil := none, resolvedAt := none, dismissReason := none }

/-- The per-message fan-out of `runPipeline` (`pipeline.ts` lines 113-160):
the ledger append (always), the digest add (`high`/`medium` only, status
`new`), and the push message (`high` and `notify` only). -/
def fanOutStep (now : Int) (email : TrimmedEmail) (result : ClassificationResult) :
    EmailLogEntry × Option DigestEntry × Option String :=
  let logEntry : EmailLogEntry :=
    { email := email, importance := result.importance, reason := result.reason,
      notify := result.notify, timestamp := now }
  if result.importance = .high ∨ result.importance = .medium then
    (logEntry, some (digestEntryOfVerdict now email result),
     if result.importance = .high ∧ result.notify = true
     then some (formatPushMessage email result) else none)
  else (logEntry, none, none)

/-- `BATCH_SIZE` (`pipeline.ts` line 40). -/
def BATCH_SIZE : Nat := 10

/-- The batching loop `for (i = 0; i < n; i += BATCH_SIZE) slice(i, i+BATCH_SIZE)`. -/
def chunksOf (n : Nat) : List α → List (List α)
  | [] => []
  | x :: xs => (x :: xs.take (n - 1)) :: chunksOf n (xs.drop (n - 1))
termination_by l => l.length
decreasing_by
  simp only [List.length_drop, List.length_cons]
  omega

/-- The classify-and-fan-out phase of `runPipeline` (`pipeline.ts` lines
109-161): the surviving emails are cut into batches of `BATCH_SIZE`, each
batch is classified, and each (email, verdict) pair at matching positions is
fanned out. -/
def runFanOut (now : Int)
    (classifier : List TrimmedEmail → List ClassificationResult)
    (emails : List TrimmedEmail) :
    List (EmailLogEntry × Option DigestEntry × Option String) :=
  ((chunksOf BATCH_SIZE emails).map fun batch =>
    (batch.zip (classifier batch)).map fun p => fanOutStep now p.1 p.2).flatten

theorem chunksOf_flatten (n : Nat) (l : List α) : (chunksOf n l).flatten = l := by
  induction l using chunksOf.induct n with
  | case1 => simp [chunksOf]
  | case2 x xs ih =>
    rw [chunksOf, List.flatten_cons, ih, List.cons_append, List.take_append_drop]

/-- C4: for every message classified in a cycle, exactly one Event Ledger
entry is produced regardless of tier (one fan-out record per surviving
email, its ledger component carrying the message and verdict); a digest
(worklist) entry in status `new` is produced iff the verdict is `high` or
`medium` (never for `low`); and a push notification is produced iff the
verdict is `high` with `notify = true` (in particular never for `medium`). -/
theorem fanout_gating (now : Int)
    (classifier : List TrimmedEmail → List ClassificationResult)
    (emails : List TrimmedEmail) (email : TrimmedEmail)
    (result : ClassificationResult) :
    ((∀ b, (classifier b).length = b.length) →
      (runFanOut now classifier emails).length = emails.length) ∧
    (fanOutStep now email result).1 =
      { email := email, importance := result.importance, reason := result.reason,
        notify := result.notify, timestamp := now } ∧
    ((∃ e, (fanOutStep now email result).2.1 = some e ∧ e.status = .new ∧ e.id = email.id) ↔
      (result.importance = .high ∨ result.importance = .medium)) ∧
    ((fanOutStep now email result).2.1 = none ↔ result.importance = .low) ∧
    ((fanOutStep now email result).2.2 = some (formatPushMessage email result) ↔
      (result.importance = .high ∧ result.notify = true)) ∧
    ((fanOutStep now email result).2.2 = none ↔
      ¬(result.importance = .high ∧ result.notify = true)) ∧
    (result.importance = .medium → (fanOutStep now email result).2.2 = none) ∧
    (∀ p ∈ runFanOut now classifier emails, ∃ b r, p = fanOutStep now b r) := by
  obtain ⟨rid, imp, rreason, rnotify⟩ := result
  refine ⟨?_, ?_, ?_, ?_, ?_, ?_, ?_, ?_⟩
  · intro h
    unfold runFanOut
    rw [List.length_flatten, List.map_map]
    have hcg : (chunksOf BATCH_SIZE emails).map
        (List.length ∘ fun batch =>
          (batch.zip (classifier batch)).map fun p => fanOutStep now p.1 p.2) =
        (chunksOf BATCH_SIZE emails).map List.length := by
      refine List.map_congr_left fun b _ => ?_
      simp [List.length_zip, h b]
    rw [hcg, ← List.length_flatten, chunksOf_flatten]
  · cases imp <;> simp [fanOutStep]
  · cases imp <;> simp [fanOutStep, digestEntryOfVerdict]
  · cases imp <;> simp [fanOutStep]
  · cases imp <;> cases rnotify <;> simp [fanOutStep]
  · cases imp <;> cases rnotify <;> simp [fanOutStep]
  · intro h
    simp only at h
    subst h
    simp [fanOutStep]
  · intro p hp
    unfold runFanOut at hp
    rw [List.mem_flatten] at hp
    obtain ⟨L, hL, hpL⟩ := hp
    obtain ⟨batch, _, rfl⟩ := List.mem_map.mp hL
    obtain ⟨q, _, rfl⟩ := List.mem_map.mp hpL
    exact ⟨q.1, q.2, rfl⟩

/-- A fixed trimmed email used to instantiate the fan-out theorem. -/
def mkEmailW (id : String) : TrimmedEmail :=
  { id := id, threadId := "t-1", account := "a@x.com", fromAddr := "s@x.com",
    toAddr := "a@x.com", subject := "Subject", date := "2026-02-26", body := "Body",
    threadLength := 1, hasAttachments := false }

/-- Instance of C4 on a two-email cycle with one `low` and one `high` verdict
classifier. -/
theorem fanout_gating_witness :
    (runFanOut 0
      (fun b => b.map fun e =>
        { id := e.id, importance := if e.id = "u" then .high else .low,
          reason := "r", notify := true })
      [mkEmailW "u", mkEmailW "s"]).length = 2 ∧
    (fanOutStep 0 (mkEmailW "s")
        { id := "s", importance := .low, reason := "r", notify := true }).2.1 = none ∧
    (fanOutStep 0 (mkEmailW "u")
        { id := "u", importance := .high, reason := "r", notify := true }).2.2 =
      some (formatPushMessage (mkEmailW "u")
        { id := "u", importance := .high, reason := "r", notify := true }) ∧
    (fanOutStep 0 (mkEmailW "m")
        { id := "m", importance := .medium, reason := "r", notify := true }).2.2 = none := by
  have h1 := (fanout_gating 0
    (fun b => b.map fun e =>
      { id := e.id, importance := if e.id = "u" then .high else .low,
        reason := "r", notify := true })
    [mkEmailW "u", mkEmailW "s"] (mkEmailW "s")
    { id := "s", importance := .low, reason := "r", notify := true }).1
    (by intro b; simp)
  have h2 := (fanout_gating 0 (fun _ => []) [] (mkEmailW "s")
    { id := "s", importance := .low, reason := "r", notify := true }).2.2.2.1.mpr rfl
  have h3 := (fanout_gating 0 (fun _ => []) [] (mkEmailW "u")
    { id := "u", importance := .high, reason := "r", notify := true }).2.2.2.2.1.mpr
    ⟨rfl, rfl⟩
  have h4 := (fanout_gating 0 (fun _ => []) [] (mkEmailW "m")
    { id := "m", importance := .medium, reason := "r", notify := true }).2.2.2.2.2.2.1 rfl
  exact ⟨h1, h2, h3, h4⟩

end BetterEmail
